import Mathlib

/-!
Verification of the recurring-upkeep-scheduler task status engine.

The program's date values are host `Date` objects, which are timestamps
interpreted through a proleptic Gregorian calendar.  The embedding
represents a date as a civil triple `(year, month, day)` (month `1..12`,
day `1..daysInMonth` once normalized).  The host operations used by the
code (`new Date(y, m, d)`, `setDate`, `setMonth`, `setFullYear`) all go
through the host's MakeDay normalization: months are folded into years
with floored division, and an out-of-range day-of-month is carried into
adjacent months.  `normalizeDays` implements that carry directly on civil
triples; `toDays` is the classical civil-to-day-number conversion used to
model `getTime` (a timestamp is `86400000 * toDays`, midnight in a
fixed-offset environment).  All functions are total; interval quantities
are modelled as integers.
-/

set_option autoImplicit false

namespace Upkeep

/-- Civil calendar date: a `Date` value observed through
`getFullYear` / `getMonth + 1` / `getDate`. -/
structure Civil where
  year : Int
  month : Int
  day : Int
  deriving DecidableEq, Repr

/-- Gregorian leap-year rule, as the host calendar defines it. -/
def isLeapYear (y : Int) : Bool :=
  (y % 4 == 0 && y % 100 != 0) || (y % 400 == 0)

/-- Number of days of month `m` of year `y` (months `1..12`; the default
branch is never reached on normalized months). -/
def daysInMonth (y m : Int) : Int :=
  if m = 2 then (if isLeapYear y then 29 else 28)
  else if m = 4 ∨ m = 6 ∨ m = 9 ∨ m = 11 then 30
  else 31

/-- Carry an overflowing day-of-month forward month by month.  The fuel is
only a structural-recursion bound: every step removes at least 28 days
from `d`, so `d.toNat + 1` steps always suffice and the fuel-exhausted
branch is unreachable from `normalizeDays`. -/
def monthCarryF : Nat → Int → Int → Int → Civil
  | 0, y, m, d => ⟨y, m, d⟩
  | Nat.succ fuel, y, m, d =>
    if d ≤ daysInMonth y m then ⟨y, m, d⟩
    else if m = 12 then monthCarryF fuel (y + 1) 1 (d - daysInMonth y m)
    else monthCarryF fuel y (m + 1) (d - daysInMonth y m)

/-- Borrow a non-positive day-of-month backward month by month (the
`setDate(0)` case).  Fuel as in `monthCarryF`. -/
def monthCarryB : Nat → Int → Int → Int → Civil
  | 0, y, m, d => ⟨y, m, d⟩
  | Nat.succ fuel, y, m, d =>
    if 1 ≤ d then ⟨y, m, d⟩
    else if m = 1 then monthCarryB fuel (y - 1) 12 (d + daysInMonth (y - 1) 12)
    else monthCarryB fuel y (m - 1) (d + daysInMonth y (m - 1))

/-- Day-field normalization of the host MakeDay operation: month is
assumed in `1..12`, the day may be any integer. -/
def normalizeDays (y m d : Int) : Civil :=
  if 1 ≤ d then monthCarryF (d.toNat + 1) y m d
  else monthCarryB ((1 - d).toNat + 1) y m d

/-- Host MakeDay: fold an arbitrary 0-indexed month `mIdx` into the year
with floored division, then normalize the day field. -/
def jsMakeDay (y mIdx d : Int) : Civil :=
  normalizeDays (y + mIdx.fdiv 12) (mIdx.emod 12 + 1) d

/-- Days since 1970-01-01 of a normalized civil date (the civil-to-days
conversion of the proleptic Gregorian calendar); `getTime` of a local
midnight is `86400000 * toDays`. -/
def toDays (c : Civil) : Int :=
  let y := if c.month ≤ 2 then c.year - 1 else c.year
  let era := y.fdiv 400
  let yoe := y - era * 400
  let mp := (c.month + 9).emod 12
  let doy := (153 * mp + 2).fdiv 5 + c.day - 1
  let doe := yoe * 365 + yoe.fdiv 4 - yoe.fdiv 100 + doy
  era * 146097 + doe - 719468

/-- The host date range: a `Date` is invalid (`isNaN(getTime())`) when its
timestamp exceeds 8.64e15 ms, i.e. 100,000,000 days, in absolute value. -/
def jsDateRangeOK (c : Civil) : Bool :=
  (toDays c).natAbs ≤ 100000000

/-- Host `Math.ceil(a / b)` for an integer numerator and positive integer
denominator (exact for the magnitudes the program produces). -/
def jsCeilDiv (a b : Int) : Int :=
  -((-a).fdiv b)

/-- Host `new Date(y, mIdx, d)` constructor semantics: two-digit years
0..99 are offset to 1900..1999, then MakeDay normalization. -/
def jsDateCtor (y mIdx d : Int) : Civil :=
  jsMakeDay (if 0 ≤ y ∧ y ≤ 99 then y + 1900 else y) mIdx d

/-! String helpers shared by the date functions. -/

/-- Numeric value of a decimal digit character. -/
def digitVal (c : Char) : Nat := c.toNat - '0'.toNat

/-- Host `parseInt` on the digit strings produced by the date regex: the
leading run of decimal digits, `none` (NaN) when there is none. -/
def jsParseInt (l : List Char) : Option Nat :=
  match l.takeWhile Char.isDigit with
  | [] => none
  | ds => some (ds.foldl (fun acc c => acc * 10 + digitVal c) 0)

/-- Host `String.prototype.split('-')` on a character list. -/
def splitDash : List Char → List (List Char)
  | [] => [[]]
  | c :: rest =>
    if c = '-' then [] :: splitDash rest
    else
      match splitDash rest with
      | [] => [[c]]
      | l :: ls => (c :: l) :: ls

/-- Test of the regex `^\d{4}-\d{2}-\d{2}$`. -/
def ymdShape (l : List Char) : Bool :=
  match l with
  | [y1, y2, y3, y4, h1, m1, m2, h2, d1, d2] =>
    y1.isDigit && y2.isDigit && y3.isDigit && y4.isDigit && h1 = '-' &&
    m1.isDigit && m2.isDigit && h2 = '-' && d1.isDigit && d2.isDigit
  | _ => false

/-- The code's `dateString.includes('T') ? dateString.split('T')[0] :
dateString`: everything from an embedded `'T'` onward is dropped. -/
def stripTimePart (s : String) : String :=
  if s.data.any (fun c => c = 'T') then String.mk (s.data.takeWhile (fun c => c ≠ 'T'))
  else s

/-- Host `toLowerCase` on the ASCII unit strings the program compares. -/
def jsToLower (s : String) : String :=
  String.mk (s.data.map (fun c =>
    if 'A' ≤ c ∧ c ≤ 'Z' then Char.ofNat (c.toNat + 32) else c))

/-- Host `endsWith` for a single-character suffix, as used by
`smartAppendToTable`. -/
def jsEndsWithChar (s : String) (c : Char) : Bool :=
  s.data.getLast? = some c

/-- Host `String(n)` / template-literal rendering of an integer. -/
def jsNumToString (n : Int) : String := toString n

/-- Host `String(n).padStart(2, '0')`. -/
def pad2 (n : Int) : String :=
  let s := jsNumToString n
  if s.length < 2 then "0" ++ s else s

/-- The formatting `` `${year}-${month+1 padded}-${day padded}` `` used by
`calculateNextDueDate`. -/
def formatYMD (c : Civil) : String :=
  jsNumToString c.year ++ "-" ++ pad2 c.month ++ "-" ++ pad2 c.day

/-- The `toISOString().split('T')[0]` rendering of a valid native date
(model restricted to years 0..9999, which zero-pad to four digits). -/
def isoDatePart (c : Civil) : String :=
  let y := jsNumToString c.year
  (if y.length < 4 then String.mk (List.replicate (4 - y.length) '0') ++ y else y)
    ++ "-" ++ pad2 c.month ++ "-" ++ pad2 c.day

/-- Inputs accepted by `DateUtils.parseLocalDate`: `null`/`undefined`, a
string, an object with a `toFormat` method (its result, `none` when the
call throws), or a native date object (`none` for an Invalid Date, whose
`toISOString()` throws). -/
inductive DateInput where
  | null
  | str (s : String)
  | formatted (r : Option String)
  | nativeDate (c : Option Civil)

namespace DateUtils

/-- String pipeline of `DateUtils.parseLocalDate`: strip an embedded time
part, test the `^\d{4}-\d{2}-\d{2}$` regex, `split('-')`, `parseInt` the
three parts with an `isNaN` re-check, and construct via the local
`new Date(year, month, day)` constructor. -/
def parseLocalDateString (s : String) : Option Civil :=
  let clean := stripTimePart s
  if ymdShape clean.data then
    match splitDash clean.data with
    | [p1, p2, p3] =>
      match jsParseInt p1, jsParseInt p2, jsParseInt p3 with
      | some year, some monthPlus1, some day =>
        some (jsDateCtor year (monthPlus1 - 1) day)
      | _, _, _ => none
    | _ => none
  else none

/-- `DateUtils.parseLocalDate`: `none` models the Invalid Date sentinel
`new Date(NaN)`.  The leading falsy test rejects `null`/`undefined` and
the empty string; object inputs are first rendered to a string (errors
thrown while rendering are caught and yield the sentinel). -/
def parseLocalDate (input : DateInput) : Option Civil :=
  match input with
  | .null => none
  | .str s => if s = "" then none else parseLocalDateString s
  | .formatted none => none
  | .formatted (some s) => parseLocalDateString s
  | .nativeDate none => none
  | .nativeDate (some c) => parseLocalDateString (isoDatePart c)

/-- The spec's description of the string case of `parseLocalDate`, stated
independently of the implementation's `split`/`parseInt`/`isNaN` path:
strip everything from an embedded `'T'` onward; unless the remainder
matches `^\d{4}-\d{2}-\d{2}$` return the invalid sentinel; otherwise read
the year/month/day integers positionally and construct the date with the
local calendar constructor. -/
def specLocalDateParse (s : String) : Option Civil :=
  match (stripTimePart s).data with
  | [y1, y2, y3, y4, h1, m1, m2, h2, d1, d2] =>
    if y1.isDigit ∧ y2.isDigit ∧ y3.isDigit ∧ y4.isDigit ∧ h1 = '-' ∧
       m1.isDigit ∧ m2.isDigit ∧ h2 = '-' ∧ d1.isDigit ∧ d2.isDigit then
      some (jsDateCtor
        (((digitVal y1 * 10 + digitVal y2) * 10 + digitVal y3) * 10 + digitVal y4)
        ((digitVal m1 * 10 + digitVal m2 : Int) - 1)
        (digitVal d1 * 10 + digitVal d2))
    else none
  | _ => none

/-- `DateUtils.isToday`: exact calendar-day equality after local-date
parsing of both strings (`now` is modelled as always supplied; the code
defaults it to the current date). -/
def isToday (dateString : String) (now : String) : Bool :=
  if dateString = "" then false
  else
    match parseLocalDate (.str dateString), parseLocalDate (.str now) with
    | some date, some today =>
      date.day = today.day ∧ date.month = today.month ∧ date.year = today.year
    | _, _ => false

/-- `DateUtils.calculateDaysRemaining`: `-9999` for a missing due date or
an unparsable date, otherwise `Math.ceil` of the millisecond difference
of the two local-parsed dates over `86400000`. -/
def calculateDaysRemaining (dueDate : String) (now : String) : Int :=
  if dueDate = "" then -9999
  else
    match parseLocalDate (.str now), parseLocalDate (.str dueDate) with
    | some today, some due =>
      let diffTime := 86400000 * toDays due - 86400000 * toDays today
      jsCeilDiv diffTime 86400000
    | _, _ => -9999

/-- Model of the host `new Date(string)` parser used by
`calculateNextDueDate`, on the ISO `YYYY-MM-DD` date-only shape that the
system's dates use: the ISO parser requires a real calendar day (unlike
the normalizing `new Date(y, m, d)` constructor) and is UTC-midnight
based, which in the fixed-offset model coincides with the civil date.
Other host-specific lenient date formats are outside the model and
treated as unparsable. -/
def jsParseIsoDate (s : String) : Option Civil :=
  match s.data with
  | [y1, y2, y3, y4, h1, m1, m2, h2, d1, d2] =>
    if y1.isDigit ∧ y2.isDigit ∧ y3.isDigit ∧ y4.isDigit ∧ h1 = '-' ∧
       m1.isDigit ∧ m2.isDigit ∧ h2 = '-' ∧ d1.isDigit ∧ d2.isDigit then
      let y : Int := ((digitVal y1 * 10 + digitVal y2) * 10 + digitVal y3) * 10 + digitVal y4
      let m : Int := digitVal m1 * 10 + digitVal m2
      let d : Int := digitVal d1 * 10 + digitVal d2
      if 1 ≤ m ∧ m ≤ 12 ∧ 1 ≤ d ∧ d ≤ daysInMonth y m then some ⟨y, m, d⟩ else none
    else none
  | _ => none

/-- Branch dispatch of `calculateNextDueDate` on the normalized unit:
`setDate`, `setMonth` with the `setDate(0)` month-end clamp, or
`setFullYear`, each expressed through the host MakeDay normalization;
`none` for an unrecognized unit. -/
def nextDueCivil (c : Civil) (interval : Int) (nu : Option String) : Option Civil :=
  if nu = some "day" ∨ nu = some "days" then
    some (jsMakeDay c.year (c.month - 1) (c.day + interval))
  else if nu = some "week" ∨ nu = some "weeks" then
    some (jsMakeDay c.year (c.month - 1) (c.day + interval * 7))
  else if nu = some "month" ∨ nu = some "months" then
    let targetDay := c.day
    let c2 := jsMakeDay c.year (c.month - 1 + interval) c.day
    some (if c2.day ≠ targetDay then jsMakeDay c2.year (c2.month - 1) 0 else c2)
  else if nu = some "year" ∨ nu = some "years" then
    some (jsMakeDay (c.year + interval) (c.month - 1) c.day)
  else none

/-- `DateUtils.calculateNextDueDate`: `null` for a missing or unparsable
`lastDone`, a non-positive interval, an unrecognized unit, or (the final
`isNaN(nextDue.getTime())` guard) a computed date outside the host date
range.  The intermediate mutations propagate invalidity to that final
guard, so checking the range once on the final date is equivalent. -/
def calculateNextDueDate (lastDoneDate : String) (interval : Int)
    (intervalUnit : Option String) : Option String :=
  if lastDoneDate = "" then none
  else
    match jsParseIsoDate lastDoneDate with
    | none => none
    | some c =>
      if interval ≤ 0 then none
      else
        match nextDueCivil c interval (intervalUnit.map jsToLower) with
        | none => none
        | some c2 => if jsDateRangeOK c2 then some (formatYMD c2) else none

/-- The spec's month rule, stated independently of the implementation:
add `interval` months (folding into years), and if the original
day-of-month does not exist in the target month, clamp to the last day of
the target month rather than rolling into the following month. -/
def addMonthsClamped (c : Civil) (n : Int) : Civil :=
  let t := c.month - 1 + n
  let y2 := c.year + t.fdiv 12
  let m2 := t.emod 12 + 1
  ⟨y2, m2, min c.day (daysInMonth y2 m2)⟩

end DateUtils

/-! Task data model (`src/types.ts`) and the status engine. -/

/-- The two localized status strings `determineTaskStatus` can emit,
abstracted from the locale catalogs: `overdue` stands for
`getLocalizedOverdue()` ("⚠️ Overdue") and `upToDate` for
`getLocalizedUpToDate()` ("✅ Up to date" / "✅ Aktuell"). -/
inductive StatusLabel where
  | overdue
  | upToDate
  deriving DecidableEq, Repr

/-- `UpkeepTask` frontmatter fields used by the status engine (`file`,
`type` and `tags` play no role in it).  `interval_unit` is `Option` so
that an absent unit (`undefined`) is representable. -/
structure UpkeepTask where
  last_done : Option String
  interval : Int
  interval_unit : Option String
  complete_early_days : Option Int
  deriving DecidableEq, Repr

/-- `TaskStatus`, the output record of `determineTaskStatus`. -/
structure TaskStatus where
  status : StatusLabel
  daysRemaining : Int
  calculatedNextDue : Option String
  deriving DecidableEq, Repr

/-- `ProcessedTask`: the task fields merged with the computed status
fields (`{...task, ...statusInfo}` in `TaskProcessor.processTask`). -/
structure ProcessedTask where
  last_done : Option String
  interval : Int
  interval_unit : Option String
  complete_early_days : Option Int
  status : StatusLabel
  daysRemaining : Int
  calculatedNextDue : Option String
  deriving DecidableEq, Repr

namespace RecurringUpkeepUtils

/-- `RecurringUpkeepUtils.calculateIntervalInDays`: multiply the interval
by the day-length of the recognized unit; the final `else` silently falls
back to `Number(interval)` for any other unit (including `undefined`). -/
def calculateIntervalInDays (interval : Int) (intervalUnit : Option String) : Int :=
  let nu := intervalUnit.map jsToLower
  if nu = some "day" ∨ nu = some "days" then interval
  else if nu = some "week" ∨ nu = some "weeks" then interval * 7
  else if nu = some "month" ∨ nu = some "months" then interval * 30
  else if nu = some "year" ∨ nu = some "years" then interval * 365
  else interval

/-- A unit the engine's branch dispatch recognizes: singular or plural
day/week/month/year, case-insensitively. -/
def recognizedUnit (intervalUnit : Option String) : Bool :=
  let nu := intervalUnit.map jsToLower
  nu = some "day" ∨ nu = some "days" ∨ nu = some "week" ∨ nu = some "weeks" ∨
  nu = some "month" ∨ nu = some "months" ∨ nu = some "year" ∨ nu = some "years"

/-- `RecurringUpkeepUtils.determineTaskStatus` (the binary classifier of
`src/utils/RecurringUpkeepUtils.ts`): never-completed short-circuit, then
next-due/days-remaining computation, the completed-today override, and the
binary overdue / up-to-date decision.  `now` is modelled as always
supplied (the code defaults it to the current date inside
`calculateDaysRemaining` / `isToday`). -/
def determineTaskStatus (task : UpkeepTask) (now : String) : TaskStatus :=
  match task.last_done with
  | none => ⟨.overdue, -9999, none⟩
  | some ld =>
    if ld = "" ∨ ld = "never" then ⟨.overdue, -9999, none⟩
    else
      let nextDue := DateUtils.calculateNextDueDate ld task.interval task.interval_unit
      let daysRemaining := DateUtils.calculateDaysRemaining (nextDue.getD "") now
      if DateUtils.isToday ld now then
        ⟨.upToDate, calculateIntervalInDays task.interval task.interval_unit, nextDue⟩
      else if daysRemaining ≤ 0 then ⟨.overdue, daysRemaining, nextDue⟩
      else ⟨.upToDate, daysRemaining, nextDue⟩

/-- Modelled from the spec: `RecurringUpkeepUtils.getCompleteEarlyDays` is
called by `TaskStyling` (src/unnamed/part_005) but its definition is not
among the provided sources.  Spec §3: "`completeEarlyDays`: optional
non-negative integer, default 7 if absent; any negative input clamped
to 0". -/
def getCompleteEarlyDays (task : ProcessedTask) : Int :=
  match task.complete_early_days with
  | none => 7
  | some v => max v 0

/-- `RecurringUpkeepUtils.smartAppendToTable`: insert a newline before the
row only when the content does not already end with one. -/
def smartAppendToTable (content newRow : String) : String :=
  if jsEndsWithChar content '\n' = false then content ++ "\n" ++ newRow
  else content ++ newRow

end RecurringUpkeepUtils

namespace TaskProcessor

/-- `TaskProcessor.processTask`: merge the raw task with the fields of
`determineTaskStatus`. -/
def processTask (task : UpkeepTask) (now : String) : ProcessedTask :=
  let statusInfo := RecurringUpkeepUtils.determineTaskStatus task now
  { last_done := task.last_done
    interval := task.interval
    interval_unit := task.interval_unit
    complete_early_days := task.complete_early_days
    status := statusInfo.status
    daysRemaining := statusInfo.daysRemaining
    calculatedNextDue := statusInfo.calculatedNextDue }

end TaskProcessor

/-- The five semantic status classes of the five-tier `TaskStyling`
(src/unnamed/part_005), without the `recurring-upkeep-` CSS prefix. -/
inductive TaskStatusClass where
  | neverCompleted
  | overdue
  | dueToday
  | dueSoon
  | upToDate
  deriving DecidableEq, Repr

namespace TaskStyling

/-- `TaskStyling.getTaskStatus` of the five-tier variant
(src/unnamed/part_005): never-completed, completed-today (compared by
string equality with `currentTime`), then the tiers on `daysRemaining`
against `max(completeEarlyDays, 7)`.  Only the `statusClass` field is
modelled; the accompanying tooltip string is presentation text. -/
def getTaskStatus (task : ProcessedTask) (currentTime : String) : TaskStatusClass :=
  match task.last_done with
  | none => .neverCompleted
  | some ld =>
    if ld = "" then .neverCompleted
    else if ld = currentTime then .upToDate
    else
      let daysRemaining := task.daysRemaining
      let completeEarlyDays := RecurringUpkeepUtils.getCompleteEarlyDays task
      if daysRemaining < 0 then .overdue
      else if daysRemaining = 0 then .dueToday
      else if daysRemaining ≤ max completeEarlyDays 7 then .dueSoon
      else .upToDate

/-- `TaskStyling.isEligibleForCompletion` (src/unnamed/part_005):
never-completed tasks always eligible, tasks completed today (string
equality) never, otherwise `daysRemaining <= completeEarlyDays`. -/
def isEligibleForCompletion (task : ProcessedTask) (currentTime : String) : Bool :=
  match task.last_done with
  | none => true
  | some ld =>
    if ld = "" then true
    else if ld = currentTime then false
    else task.daysRemaining ≤ RecurringUpkeepUtils.getCompleteEarlyDays task

end TaskStyling

/-! Helper lemmas. -/

theorem daysInMonth_ge_28 (y m : Int) : 28 ≤ daysInMonth y m := by
  unfold daysInMonth
  split
  · split <;> omega
  · split <;> omega

theorem daysInMonth_le_31 (y m : Int) : daysInMonth y m ≤ 31 := by
  unfold daysInMonth
  split
  · split <;> omega
  · split <;> omega

theorem getCompleteEarlyDays_nonneg (task : ProcessedTask) :
    0 ≤ RecurringUpkeepUtils.getCompleteEarlyDays task := by
  unfold RecurringUpkeepUtils.getCompleteEarlyDays
  cases task.complete_early_days
  · simp
  · simp

theorem parseLocalDate_empty : DateUtils.parseLocalDate (.str "") = none := by
  decide

theorem parseLocalDate_never : DateUtils.parseLocalDate (.str "never") = none := by
  decide

/-- A string whose local parse succeeds is neither empty nor the literal
`"never"`. -/
theorem parseLocalDate_some_ne {s : String} {c : Civil}
    (h : DateUtils.parseLocalDate (.str s) = some c) : s ≠ "" ∧ s ≠ "never" := by
  constructor
  · rintro rfl
    rw [parseLocalDate_empty] at h
    exact Option.noConfusion h
  · rintro rfl
    rw [parseLocalDate_never] at h
    exact Option.noConfusion h

/-- `isToday` evaluated on two successfully parsed strings is the
calendar-day equality of the parses. -/
theorem isToday_of_parses {s now : String} {c1 c2 : Civil}
    (h1 : DateUtils.parseLocalDate (.str s) = some c1)
    (h2 : DateUtils.parseLocalDate (.str now) = some c2) :
    DateUtils.isToday s now =
      decide (c1.day = c2.day ∧ c1.month = c2.month ∧ c1.year = c2.year) := by
  have hne : s ≠ "" := (parseLocalDate_some_ne h1).1
  unfold DateUtils.isToday
  rw [if_neg hne, h1, h2]

/-! Claim theorems. -/

/-- C8: for every document text and every row string, if the text ends
with a newline then `smartAppendToTable(text, row) = text + row`, and
otherwise it equals `text + "\n" + row` — so the append never doubles the
blank line before the new row and never glues the row onto the previous
line. -/
theorem claim_C8_smart_append (text row : String) :
    (jsEndsWithChar text '\n' = true →
      RecurringUpkeepUtils.smartAppendToTable text row = text ++ row) ∧
    (jsEndsWithChar text '\n' = false →
      RecurringUpkeepUtils.smartAppendToTable text row = text ++ "\n" ++ row) := by
  unfold RecurringUpkeepUtils.smartAppendToTable
  constructor <;> intro h <;> simp [h]

/-- Closed witness for C8 at the inputs of the repository's own unit
test. -/
theorem claim_C8_smart_append_witness :
    RecurringUpkeepUtils.smartAppendToTable "existing content\n" "| new row |" =
      "existing content\n" ++ "| new row |" ∧
    RecurringUpkeepUtils.smartAppendToTable "existing content" "| new row |" =
      "existing content" ++ "\n" ++ "| new row |" :=
  ⟨(claim_C8_smart_append "existing content\n" "| new row |").1 (by decide),
   (claim_C8_smart_append "existing content" "| new row |").2 (by decide)⟩

/-- C9: for every positive interval and recognized unit,
`calculateIntervalInDays` matches the reference mapping day → interval,
week → interval*7, month → interval*30, year → interval*365, and for a
fixed recognized unit it is strictly increasing in the interval. -/
theorem claim_C9_interval_in_days :
    (∀ (i : Int) (u : Option String), 0 < i →
      u.map jsToLower = some "day" ∨ u.map jsToLower = some "days" →
      RecurringUpkeepUtils.calculateIntervalInDays i u = i) ∧
    (∀ (i : Int) (u : Option String), 0 < i →
      u.map jsToLower = some "week" ∨ u.map jsToLower = some "weeks" →
      RecurringUpkeepUtils.calculateIntervalInDays i u = i * 7) ∧
    (∀ (i : Int) (u : Option String), 0 < i →
      u.map jsToLower = some "month" ∨ u.map jsToLower = some "months" →
      RecurringUpkeepUtils.calculateIntervalInDays i u = i * 30) ∧
    (∀ (i : Int) (u : Option String), 0 < i →
      u.map jsToLower = some "year" ∨ u.map jsToLower = some "years" →
      RecurringUpkeepUtils.calculateIntervalInDays i u = i * 365) ∧
    (∀ (u : Option String) (i j : Int), RecurringUpkeepUtils.recognizedUnit u = true →
      i < j →
      RecurringUpkeepUtils.calculateIntervalInDays i u <
        RecurringUpkeepUtils.calculateIntervalInDays j u) := by
  refine ⟨?_, ?_, ?_, ?_, ?_⟩
  · intro i u _ h
    unfold RecurringUpkeepUtils.calculateIntervalInDays
    rcases h with h | h <;> simp [h]
  · intro i u _ h
    unfold RecurringUpkeepUtils.calculateIntervalInDays
    rcases h with h | h <;> simp [h]
  · intro i u _ h
    unfold RecurringUpkeepUtils.calculateIntervalInDays
    rcases h with h | h <;> simp [h]
  · intro i u _ h
    unfold RecurringUpkeepUtils.calculateIntervalInDays
    rcases h with h | h <;> simp [h]
  · intro u i j _ hij
    dsimp only [RecurringUpkeepUtils.calculateIntervalInDays]
    split_ifs <;> omega

/-- Closed witness for C9: two weeks are fourteen days, and the weekly
mapping is increasing from 2 to 3. -/
theorem claim_C9_interval_in_days_witness :
    RecurringUpkeepUtils.calculateIntervalInDays 2 (some "weeks") = 2 * 7 ∧
    RecurringUpkeepUtils.calculateIntervalInDays 2 (some "weeks") <
      RecurringUpkeepUtils.calculateIntervalInDays 3 (some "weeks") :=
  ⟨claim_C9_interval_in_days.2.1 2 (some "weeks") (by decide) (Or.inr (by decide)),
   claim_C9_interval_in_days.2.2.2.2 (some "weeks") 2 3 (by decide) (by decide)⟩

/-- C10 (implicit): for every interval and every unit that is not a
recognized singular/plural day/week/month/year form (including an absent
unit), `calculateIntervalInDays` silently falls back to `Number(interval)`
— and a task completed today with such a unit is still reported up to
date with `daysRemaining` equal to the raw interval number. -/
theorem claim_C10_unknown_unit_fallback :
    (∀ (i : Int) (u : Option String), RecurringUpkeepUtils.recognizedUnit u = false →
      RecurringUpkeepUtils.calculateIntervalInDays i u = i) ∧
    (∀ (task : UpkeepTask) (now : String) (c : Civil),
      RecurringUpkeepUtils.recognizedUnit task.interval_unit = false →
      task.last_done = some now →
      DateUtils.parseLocalDate (.str now) = some c →
      (RecurringUpkeepUtils.determineTaskStatus task now).status = .upToDate ∧
      (RecurringUpkeepUtils.determineTaskStatus task now).daysRemaining = task.interval) := by
  have base : ∀ (i : Int) (u : Option String), RecurringUpkeepUtils.recognizedUnit u = false →
      RecurringUpkeepUtils.calculateIntervalInDays i u = i := by
    intro i u h
    unfold RecurringUpkeepUtils.recognizedUnit at h
    unfold RecurringUpkeepUtils.calculateIntervalInDays
    simp only [decide_eq_false_iff_not, not_or] at h
    obtain ⟨h1, h2, h3, h4, h5, h6, h7, h8⟩ := h
    simp [h1, h2, h3, h4, h5, h6, h7, h8]
  refine ⟨base, ?_⟩
  intro task now c hu hld hparse
  have hne := parseLocalDate_some_ne hparse
  have htoday : DateUtils.isToday now now = true := by
    rw [isToday_of_parses hparse hparse]
    simp
  simp only [RecurringUpkeepUtils.determineTaskStatus, hld]
  rw [if_neg (not_or.mpr hne), if_pos htoday]
  exact ⟨rfl, base task.interval task.interval_unit hu⟩

/-- Closed witness for C10: an unrecognized unit `"fortnights"` on a task
completed today. -/
theorem claim_C10_unknown_unit_fallback_witness :
    RecurringUpkeepUtils.calculateIntervalInDays 5 (some "fortnights") = 5 ∧
    (RecurringUpkeepUtils.determineTaskStatus
      ⟨some "2024-01-15", 5, some "fortnights", none⟩ "2024-01-15").status = .upToDate ∧
    (RecurringUpkeepUtils.determineTaskStatus
      ⟨some "2024-01-15", 5, some "fortnights", none⟩ "2024-01-15").daysRemaining = 5 :=
  ⟨claim_C10_unknown_unit_fallback.1 5 (some "fortnights") (by decide),
   (claim_C10_unknown_unit_fallback.2
      ⟨some "2024-01-15", 5, some "fortnights", none⟩ "2024-01-15" ⟨2024, 1, 15⟩
      (by decide) rfl (by decide)).1,
   (claim_C10_unknown_unit_fallback.2
      ⟨some "2024-01-15", 5, some "fortnights", none⟩ "2024-01-15" ⟨2024, 1, 15⟩
      (by decide) rfl (by decide)).2⟩

/-- The `Math.ceil` of an exact multiple of the divisor collapses to the
exact quotient. -/
theorem jsCeilDiv_exact (k : Int) : jsCeilDiv (86400000 * k) 86400000 = k := by
  unfold jsCeilDiv
  rw [show -(86400000 * k) = 86400000 * (-k) by ring,
    Int.mul_fdiv_cancel_left (-k) (by norm_num)]
  ring

/-- C5: for every pair of parsable dates, `calculateDaysRemaining`
equals the ceiling of the normalized-timestamp difference over 86400000
ms (which collapses to the exact day-number difference, both timestamps
being local midnights); the three reference examples hold; and the result
is `-9999` whenever the due date is empty or either date is unparsable. -/
theorem claim_C5_days_remaining :
    (∀ (due now : String) (c1 c2 : Civil), due ≠ "" →
      DateUtils.parseLocalDate (.str now) = some c1 →
      DateUtils.parseLocalDate (.str due) = some c2 →
      DateUtils.calculateDaysRemaining due now =
        jsCeilDiv (86400000 * toDays c2 - 86400000 * toDays c1) 86400000 ∧
      DateUtils.calculateDaysRemaining due now = toDays c2 - toDays c1) ∧
    DateUtils.calculateDaysRemaining "2024-01-16" "2024-01-15" = 1 ∧
    DateUtils.calculateDaysRemaining "2024-01-15" "2024-01-15" = 0 ∧
    DateUtils.calculateDaysRemaining "2024-01-14" "2024-01-15" = -1 ∧
    (∀ now, DateUtils.calculateDaysRemaining "" now = -9999) ∧
    (∀ due now, DateUtils.parseLocalDate (.str due) = none ∨
        DateUtils.parseLocalDate (.str now) = none →
      DateUtils.calculateDaysRemaining due now = -9999) := by
  refine ⟨?_, by decide, by decide, by decide, fun now => rfl, ?_⟩
  · intro due now c1 c2 hne h1 h2
    unfold DateUtils.calculateDaysRemaining
    rw [if_neg hne, h1, h2]
    refine ⟨rfl, ?_⟩
    show jsCeilDiv _ _ = _
    rw [show 86400000 * toDays c2 - 86400000 * toDays c1 =
      86400000 * (toDays c2 - toDays c1) by ring, jsCeilDiv_exact]
  · intro due now h
    unfold DateUtils.calculateDaysRemaining
    by_cases hne : due = ""
    · rw [if_pos hne]
    · rw [if_neg hne]
      rcases h with h | h
      · rw [h]
        cases hx : DateUtils.parseLocalDate (.str now) <;> rfl
      · rw [h]

/-- Closed witness for C5 at the reference pair of dates. -/
theorem claim_C5_days_remaining_witness :
    DateUtils.calculateDaysRemaining "2024-01-16" "2024-01-15" =
      toDays ⟨2024, 1, 16⟩ - toDays ⟨2024, 1, 15⟩ :=
  (claim_C5_days_remaining.1 "2024-01-16" "2024-01-15" ⟨2024, 1, 15⟩ ⟨2024, 1, 16⟩
    (by decide) (by decide) (by decide)).2

/-- C4: for every task whose `lastDone` is absent, the empty string, or
the literal `"never"`, classification short-circuits to the
never-completed/overdue category with `daysRemaining = -9999`,
`calculatedNextDue = null`, and `isEligibleForCompletion = true` (in the
`"never"` case this requires `now` not to be the literal `"never"`; every
caller passes a `YYYY-MM-DD` string). -/
theorem claim_C4_never_completed (task : UpkeepTask) (now : String) :
    (task.last_done = none ∨ task.last_done = some "" →
      RecurringUpkeepUtils.determineTaskStatus task now = ⟨.overdue, -9999, none⟩ ∧
      TaskStyling.getTaskStatus (TaskProcessor.processTask task now) now = .neverCompleted ∧
      TaskStyling.isEligibleForCompletion (TaskProcessor.processTask task now) now = true) ∧
    (task.last_done = some "never" → now ≠ "never" →
      RecurringUpkeepUtils.determineTaskStatus task now = ⟨.overdue, -9999, none⟩ ∧
      TaskStyling.getTaskStatus (TaskProcessor.processTask task now) now = .overdue ∧
      TaskStyling.isEligibleForCompletion (TaskProcessor.processTask task now) now = true) := by
  constructor
  · rintro (h | h) <;>
      simp [RecurringUpkeepUtils.determineTaskStatus, TaskProcessor.processTask,
        TaskStyling.getTaskStatus, TaskStyling.isEligibleForCompletion, h]
  · intro h hnow
    have hst : RecurringUpkeepUtils.determineTaskStatus task now = ⟨.overdue, -9999, none⟩ := by
      simp [RecurringUpkeepUtils.determineTaskStatus, h]
    refine ⟨hst, ?_, ?_⟩
    · simp only [TaskProcessor.processTask, hst, TaskStyling.getTaskStatus, h]
      rw [if_neg (by decide), if_neg (fun hc => hnow hc.symm)]
      norm_num
    · simp only [TaskProcessor.processTask, hst, TaskStyling.isEligibleForCompletion, h]
      rw [if_neg (by decide), if_neg (fun hc => hnow hc.symm)]
      have hced := getCompleteEarlyDays_nonneg
        (TaskProcessor.processTask task now)
      simp only [TaskProcessor.processTask, hst, h] at hced
      simp only [decide_eq_true_eq]
      omega

/-- Closed witness for C4: the spec's end-to-end scenario (never-done
monthly task at `now = "2024-01-15"`) and the `"never"` sentinel. -/
theorem claim_C4_never_completed_witness :
    (RecurringUpkeepUtils.determineTaskStatus ⟨none, 1, some "months", none⟩ "2024-01-15" =
      ⟨.overdue, -9999, none⟩ ∧
     TaskStyling.getTaskStatus
       (TaskProcessor.processTask ⟨none, 1, some "months", none⟩ "2024-01-15") "2024-01-15" =
       .neverCompleted ∧
     TaskStyling.isEligibleForCompletion
       (TaskProcessor.processTask ⟨none, 1, some "months", none⟩ "2024-01-15") "2024-01-15" =
       true) ∧
    (RecurringUpkeepUtils.determineTaskStatus ⟨some "never", 1, some "months", none⟩
       "2024-01-15" = ⟨.overdue, -9999, none⟩ ∧
     TaskStyling.getTaskStatus
       (TaskProcessor.processTask ⟨some "never", 1, some "months", none⟩ "2024-01-15")
       "2024-01-15" = .overdue ∧
     TaskStyling.isEligibleForCompletion
       (TaskProcessor.processTask ⟨some "never", 1, some "months", none⟩ "2024-01-15")
       "2024-01-15" = true) :=
  ⟨(claim_C4_never_completed ⟨none, 1, some "months", none⟩ "2024-01-15").1 (Or.inl rfl),
   (claim_C4_never_completed ⟨some "never", 1, some "months", none⟩ "2024-01-15").2 rfl
     (by decide)⟩

/-- C3 counterexample: `lastDone = "2023-12-32"` is parsable and denotes
the same calendar day as `now = "2024-01-01"` (the local parser
normalizes December 32 to January 1), so the claim's premise holds for
this daily task with default `completeEarlyDays`; yet the five-tier
classification is `dueSoon`, not `upToDate`, and `isEligibleForCompletion`
is `true`, not `false` — the classifier compares `lastDone` to `now` by
string equality, not by calendar day. -/
theorem claim_C3_counterexample :
    DateUtils.isToday "2023-12-32" "2024-01-01" = true ∧
    DateUtils.parseLocalDate (.str "2023-12-32") = some ⟨2024, 1, 1⟩ ∧
    (0 : Int) < 1 ∧ RecurringUpkeepUtils.recognizedUnit (some "days") = true ∧
    (RecurringUpkeepUtils.determineTaskStatus
      ⟨some "2023-12-32", 1, some "days", none⟩ "2024-01-01").daysRemaining = 1 ∧
    TaskStyling.getTaskStatus
      (TaskProcessor.processTask ⟨some "2023-12-32", 1, some "days", none⟩ "2024-01-01")
      "2024-01-01" = .dueSoon ∧
    TaskStyling.isEligibleForCompletion
      (TaskProcessor.processTask ⟨some "2023-12-32", 1, some "days", none⟩ "2024-01-01")
      "2024-01-01" = true := by
  decide

/-- C3 (amended): for every task whose `lastDone` equals `now` as a
string — the form in which both classifiers perform their completed-today
test — with `now` a parsable date string, a positive interval, and a
recognized unit, classification returns up to date with `daysRemaining`
overridden to the full interval length in days (not the near-zero
days-to-next-due), and `isEligibleForCompletion = false`, regardless of
`completeEarlyDays`. -/
theorem claim_C3_completed_today (task : UpkeepTask) (now : String) (c : Civil)
    (hld : task.last_done = some now)
    (hparse : DateUtils.parseLocalDate (.str now) = some c)
    (_hint : 0 < task.interval)
    (_hunit : RecurringUpkeepUtils.recognizedUnit task.interval_unit = true) :
    RecurringUpkeepUtils.determineTaskStatus task now =
      ⟨.upToDate,
        RecurringUpkeepUtils.calculateIntervalInDays task.interval task.interval_unit,
        DateUtils.calculateNextDueDate now task.interval task.interval_unit⟩ ∧
    TaskStyling.getTaskStatus (TaskProcessor.processTask task now) now = .upToDate ∧
    TaskStyling.isEligibleForCompletion (TaskProcessor.processTask task now) now = false := by
  have hne := parseLocalDate_some_ne hparse
  have htoday : DateUtils.isToday now now = true := by
    rw [isToday_of_parses hparse hparse]
    simp
  have hst : RecurringUpkeepUtils.determineTaskStatus task now =
      ⟨.upToDate,
        RecurringUpkeepUtils.calculateIntervalInDays task.interval task.interval_unit,
        DateUtils.calculateNextDueDate now task.interval task.interval_unit⟩ := by
    simp only [RecurringUpkeepUtils.determineTaskStatus, hld]
    rw [if_neg (not_or.mpr hne), if_pos htoday]
  refine ⟨hst, ?_, ?_⟩
  · simp [TaskProcessor.processTask, hst, TaskStyling.getTaskStatus, hld, hne.1]
  · simp [TaskProcessor.processTask, hst, TaskStyling.isEligibleForCompletion, hld, hne.1]

/-- Closed witness for C3 (amended) at a monthly task completed today. -/
theorem claim_C3_completed_today_witness :
    RecurringUpkeepUtils.determineTaskStatus
      ⟨some "2024-01-15", 1, some "months", some 40⟩ "2024-01-15" =
      ⟨.upToDate, RecurringUpkeepUtils.calculateIntervalInDays 1 (some "months"),
        DateUtils.calculateNextDueDate "2024-01-15" 1 (some "months")⟩ ∧
    TaskStyling.getTaskStatus
      (TaskProcessor.processTask ⟨some "2024-01-15", 1, some "months", some 40⟩
        "2024-01-15") "2024-01-15" = .upToDate ∧
    TaskStyling.isEligibleForCompletion
      (TaskProcessor.processTask ⟨some "2024-01-15", 1, some "months", some 40⟩
        "2024-01-15") "2024-01-15" = false :=
  claim_C3_completed_today ⟨some "2024-01-15", 1, some "months", some 40⟩ "2024-01-15"
    ⟨2024, 1, 15⟩ rfl (by decide) (by decide) (by decide)

/-- C1: for every task with a parsable `lastDone` that is not the same
calendar day as `now` and a computable next due date, the five-tier
classification is tiered by the processed `daysRemaining` — negative
gives overdue, zero gives due today, positive up to
`max(completeEarlyDays, 7)` gives due soon, larger gives up to date —
and `isEligibleForCompletion` holds exactly when
`daysRemaining <= completeEarlyDays`, where `completeEarlyDays` defaults
to 7 when absent and clamps negative inputs to 0
(`getCompleteEarlyDays` is modelled from the spec, see its docstring). -/
theorem claim_C1_tiered_classification (task : UpkeepTask) (now ld : String)
    (c1 c2 : Civil) (nd : String)
    (hld : task.last_done = some ld)
    (hp1 : DateUtils.parseLocalDate (.str ld) = some c1)
    (hp2 : DateUtils.parseLocalDate (.str now) = some c2)
    (hday : ¬(c1.day = c2.day ∧ c1.month = c2.month ∧ c1.year = c2.year))
    (hnext : DateUtils.calculateNextDueDate ld task.interval task.interval_unit = some nd) :
    (TaskProcessor.processTask task now).daysRemaining =
      DateUtils.calculateDaysRemaining nd now ∧
    TaskStyling.getTaskStatus (TaskProcessor.processTask task now) now =
      (if (TaskProcessor.processTask task now).daysRemaining < 0 then .overdue
       else if (TaskProcessor.processTask task now).daysRemaining = 0 then .dueToday
       else if (TaskProcessor.processTask task now).daysRemaining ≤
           max (RecurringUpkeepUtils.getCompleteEarlyDays (TaskProcessor.processTask task now)) 7
         then .dueSoon
       else .upToDate) ∧
    TaskStyling.isEligibleForCompletion (TaskProcessor.processTask task now) now =
      decide ((TaskProcessor.processTask task now).daysRemaining ≤
        RecurringUpkeepUtils.getCompleteEarlyDays (TaskProcessor.processTask task now)) ∧
    (∀ t : ProcessedTask, t.complete_early_days = none →
      RecurringUpkeepUtils.getCompleteEarlyDays t = 7) ∧
    (∀ (t : ProcessedTask) (v : Int), t.complete_early_days = some v → v < 0 →
      RecurringUpkeepUtils.getCompleteEarlyDays t = 0) := by
  have hne := parseLocalDate_some_ne hp1
  have hldnow : ld ≠ now := by
    rintro rfl
    rw [hp1] at hp2
    exact hday (by simp [Option.some.injEq] at hp2; simp [hp2])
  have htoday : DateUtils.isToday ld now = false := by
    rw [isToday_of_parses hp1 hp2]
    simpa using hday
  have hst : RecurringUpkeepUtils.determineTaskStatus task now =
      (if DateUtils.calculateDaysRemaining nd now ≤ 0 then
        (⟨.overdue, DateUtils.calculateDaysRemaining nd now, some nd⟩ : TaskStatus)
       else ⟨.upToDate, DateUtils.calculateDaysRemaining nd now, some nd⟩) := by
    simp only [RecurringUpkeepUtils.determineTaskStatus, hld]
    rw [if_neg (not_or.mpr hne), hnext, htoday]
    simp
  constructor
  · simp only [TaskProcessor.processTask, hst]
    split <;> rfl
  refine ⟨?_, ?_, ?_, ?_⟩
  · simp only [TaskProcessor.processTask, hst, TaskStyling.getTaskStatus, hld]
    rw [if_neg hne.1, if_neg hldnow]
  · simp only [TaskProcessor.processTask, hst, TaskStyling.isEligibleForCompletion, hld]
    rw [if_neg hne.1, if_neg hldnow]
  · intro t ht
    simp [RecurringUpkeepUtils.getCompleteEarlyDays, ht]
  · intro t v ht hv
    simp [RecurringUpkeepUtils.getCompleteEarlyDays, ht]
    omega

/-- Closed witness for C1: a two-week task last done 2024-01-01 with
`completeEarlyDays = 3`, observed on 2024-01-10 (five days before due,
inside the due-soon window, outside the eligibility window). -/
theorem claim_C1_tiered_classification_witness :
    (TaskProcessor.processTask ⟨some "2024-01-01", 2, some "weeks", some 3⟩
      "2024-01-10").daysRemaining = DateUtils.calculateDaysRemaining "2024-01-15" "2024-01-10" ∧
    TaskStyling.getTaskStatus
      (TaskProcessor.processTask ⟨some "2024-01-01", 2, some "weeks", some 3⟩ "2024-01-10")
      "2024-01-10" = .dueSoon ∧
    TaskStyling.isEligibleForCompletion
      (TaskProcessor.processTask ⟨some "2024-01-01", 2, some "weeks", some 3⟩ "2024-01-10")
      "2024-01-10" = false := by
  have h := claim_C1_tiered_classification
    ⟨some "2024-01-01", 2, some "weeks", some 3⟩ "2024-01-10" "2024-01-01"
    ⟨2024, 1, 1⟩ ⟨2024, 1, 10⟩ "2024-01-15" rfl (by decide) (by decide) (by decide) (by decide)
  refine ⟨h.1, ?_, ?_⟩
  · rw [h.2.1]
    decide
  · rw [h.2.2.1]
    decide

/-- A fueled forward carry stops immediately when the day fits. -/
theorem monthCarryF_stop (fuel : Nat) (y m d : Int) (h : d ≤ daysInMonth y m) :
    monthCarryF (fuel + 1) y m d = ⟨y, m, d⟩ := by
  simp [monthCarryF, h]

/-- Normalization of an in-range day is the identity. -/
theorem normalizeDays_self (y m d : Int) (h1 : 1 ≤ d) (h2 : d ≤ daysInMonth y m) :
    normalizeDays y m d = ⟨y, m, d⟩ := by
  unfold normalizeDays
  rw [if_pos h1]
  exact monthCarryF_stop d.toNat y m d h2

/-- Normalization of a day that overflows its month by at most three days
(the only overflow the month branch can produce) carries exactly one
month. -/
theorem normalizeDays_carry (y m d : Int) (hdim : daysInMonth y m < d) (hd31 : d ≤ 31) :
    normalizeDays y m d =
      if m = 12 then ⟨y + 1, 1, d - daysInMonth y m⟩
      else ⟨y, m + 1, d - daysInMonth y m⟩ := by
  have h28 := daysInMonth_ge_28 y m
  have h1d : 1 ≤ d := by omega
  unfold normalizeDays
  rw [if_pos h1d]
  obtain ⟨k, hk⟩ : ∃ k, d.toNat = k + 1 := ⟨d.toNat - 1, by omega⟩
  rw [hk]
  show monthCarryF (k + 1 + 1) y m d = _
  simp only [monthCarryF]
  rw [if_neg (by omega)]
  split
  · have h28b := daysInMonth_ge_28 (y + 1) 1
    exact monthCarryF_stop k (y + 1) 1 (d - daysInMonth y m) (by omega)
  · have h28b := daysInMonth_ge_28 y (m + 1)
    exact monthCarryF_stop k y (m + 1) (d - daysInMonth y m) (by omega)

/-- The `setDate(0)` operation on the first of a normalized month: the
last day of the preceding month. -/
theorem jsMakeDay_zero (y m : Int) (h1 : 1 ≤ m) (h2 : m ≤ 12) :
    jsMakeDay y (m - 1) 0 =
      if m = 1 then ⟨y - 1, 12, daysInMonth (y - 1) 12⟩
      else ⟨y, m - 1, daysInMonth y (m - 1)⟩ := by
  have hfd : (m - 1).fdiv 12 = 0 := by
    rw [Int.fdiv_eq_ediv _ (by norm_num)]
    show (m - 1) / 12 = 0
    omega
  have hem : (m - 1).emod 12 = m - 1 := by
    show (m - 1) % 12 = m - 1
    omega
  unfold jsMakeDay
  rw [hfd, hem]
  have hz : y + 0 = y := by ring
  have hm : m - 1 + 1 = m := by ring
  rw [hz, hm]
  unfold normalizeDays
  rw [if_neg (by omega)]
  show monthCarryB 2 y m 0 = _
  simp only [monthCarryB]
  rw [if_neg (by omega)]
  split
  · have h28 := daysInMonth_ge_28 (y - 1) 12
    rw [if_pos (by omega)]
    simp
  · have h28 := daysInMonth_ge_28 y (m - 1)
    rw [if_pos (by omega)]
    simp

/-- Bounds carried by a successful strict ISO parse. -/
theorem jsParseIsoDate_valid {s : String} {c : Civil}
    (h : DateUtils.jsParseIsoDate s = some c) :
    1 ≤ c.month ∧ c.month ≤ 12 ∧ 1 ≤ c.day ∧ c.day ≤ daysInMonth c.year c.month := by
  unfold DateUtils.jsParseIsoDate at h
  split at h
  · split at h
    · dsimp only at h
      split at h
      · injection h with h2
        subst h2
        simp_all
      · exact absurd h (by simp)
    · exact absurd h (by simp)
  · exact absurd h (by simp)

/-- A string with a successful strict ISO parse is nonempty. -/
theorem jsParseIsoDate_ne_empty {s : String} {c : Civil}
    (h : DateUtils.jsParseIsoDate s = some c) : s ≠ "" := by
  rintro rfl
  rw [show DateUtils.jsParseIsoDate "" = none from rfl] at h
  exact Option.noConfusion h

/-- The month branch of `calculateNextDueDate` — `setMonth` followed by
the `setDate(0)` correction — computes exactly the spec's
add-months-and-clamp rule on every valid civil date. -/
theorem nextDueCivil_months (c : Civil) (n : Int)
    (_hm1 : 1 ≤ c.month) (_hm2 : c.month ≤ 12) (hd1 : 1 ≤ c.day)
    (hd2 : c.day ≤ daysInMonth c.year c.month) :
    DateUtils.nextDueCivil c n (some "months") = some (DateUtils.addMonthsClamped c n) := by
  have hd31 : c.day ≤ 31 := le_trans hd2 (daysInMonth_le_31 c.year c.month)
  unfold DateUtils.nextDueCivil
  rw [if_neg (by decide), if_neg (by decide), if_pos (by decide)]
  dsimp only
  have hkey : jsMakeDay c.year (c.month - 1 + n) c.day =
      normalizeDays (c.year + (c.month - 1 + n).fdiv 12)
        ((c.month - 1 + n).emod 12 + 1) c.day := rfl
  set y2 := c.year + (c.month - 1 + n).fdiv 12 with hy2
  set m2 := (c.month - 1 + n).emod 12 + 1 with hm2def
  have hm2a : 1 ≤ m2 := by
    rw [hm2def]
    show 1 ≤ (c.month - 1 + n) % 12 + 1
    omega
  have hm2b : m2 ≤ 12 := by
    rw [hm2def]
    show (c.month - 1 + n) % 12 + 1 ≤ 12
    omega
  by_cases hle : c.day ≤ daysInMonth y2 m2
  · rw [hkey, normalizeDays_self y2 m2 c.day hd1 hle]
    rw [if_neg (by simp)]
    unfold DateUtils.addMonthsClamped
    dsimp only
    rw [← hy2, ← hm2def, min_eq_left hle]
  · push_neg at hle
    have h28 := daysInMonth_ge_28 y2 m2
    rw [hkey, normalizeDays_carry y2 m2 c.day hle hd31]
    by_cases h12 : m2 = 12
    · rw [if_pos h12]
      rw [if_pos (by dsimp only; omega)]
      dsimp only
      have hz : y2 + 1 - 1 = y2 := by ring
      rw [show (1 : Int) - 1 = 1 - 1 from rfl]
      rw [jsMakeDay_zero (y2 + 1) 1 (by omega) (by omega)]
      rw [if_pos rfl, hz]
      unfold DateUtils.addMonthsClamped
      dsimp only
      rw [← hy2, ← hm2def, min_eq_right (by omega), h12]
    · rw [if_neg h12]
      rw [if_pos (by dsimp only; omega)]
      dsimp only
      have hp : m2 + 1 - 1 = m2 := by ring
      rw [jsMakeDay_zero y2 (m2 + 1) (by omega) (by omega)]
      rw [if_neg (by omega), hp]
      unfold DateUtils.addMonthsClamped
      dsimp only
      rw [← hy2, ← hm2def, min_eq_right (by omega)]

/-- C2 counterexample: for `n = 3000000000` months from a valid date the
claim's unrestricted quantifier fails — the target date exceeds the host
date range (±100,000,000 days), the final `isNaN` guard fires, and
`calculateNextDueDate` returns `null` instead of the clamped date. -/
theorem claim_C2_counterexample :
    DateUtils.jsParseIsoDate "2024-01-15" = some ⟨2024, 1, 15⟩ ∧
    (0 : Int) < 3000000000 ∧
    DateUtils.calculateNextDueDate "2024-01-15" 3000000000 (some "months") = none := by
  decide

/-- C2 (amended): for every valid `YYYY-MM-DD` date string and every
positive integer `n` whose clamped target date stays within the host date
range, `calculateNextDueDate` with a month unit adds `n` calendar months
and clamps a nonexistent day-of-month to the last day of the target month
rather than rolling over (beyond the range it returns `null`); in
particular the two reference examples hold. -/
theorem claim_C2_month_clamp :
    (∀ (s : String) (n : Int) (c : Civil),
      DateUtils.jsParseIsoDate s = some c → 0 < n →
      (jsDateRangeOK (DateUtils.addMonthsClamped c n) = true →
        DateUtils.calculateNextDueDate s n (some "months") =
          some (formatYMD (DateUtils.addMonthsClamped c n))) ∧
      (jsDateRangeOK (DateUtils.addMonthsClamped c n) = false →
        DateUtils.calculateNextDueDate s n (some "months") = none)) ∧
    DateUtils.calculateNextDueDate "2024-01-15" 1 (some "months") = some "2024-02-15" ∧
    DateUtils.calculateNextDueDate "2024-01-31" 1 (some "months") = some "2024-02-29" := by
  refine ⟨?_, by decide, by decide⟩
  intro s n c hparse hn
  obtain ⟨hm1, hm2, hd1, hd2⟩ := jsParseIsoDate_valid hparse
  have hbranch : DateUtils.calculateNextDueDate s n (some "months") =
      (if jsDateRangeOK (DateUtils.addMonthsClamped c n) then
        some (formatYMD (DateUtils.addMonthsClamped c n)) else none) := by
    unfold DateUtils.calculateNextDueDate
    rw [if_neg (jsParseIsoDate_ne_empty hparse), hparse]
    dsimp only
    rw [if_neg (show ¬(n ≤ 0) by omega),
      show (some "months" : Option String).map jsToLower = some "months" from by decide,
      nextDueCivil_months c n hm1 hm2 hd1 hd2]
  constructor
  · intro hrange
    rw [hbranch, if_pos hrange]
  · intro hrange
    rw [hbranch, hrange]
    simp

/-- Closed witness for C2 (amended) at the first reference example. -/
theorem claim_C2_month_clamp_witness :
    DateUtils.calculateNextDueDate "2024-01-15" 1 (some "months") =
      some (formatYMD (DateUtils.addMonthsClamped ⟨2024, 1, 15⟩ 1)) :=
  ((claim_C2_month_clamp.1 "2024-01-15" 1 ⟨2024, 1, 15⟩ (by decide) (by decide)).1
    (by decide))

/-- C7 counterexample: a parsable date, positive interval, and recognized
unit for which `calculateNextDueDate` still returns `null` — ten million
years overflows the host date range and trips the final `isNaN` guard —
so "null exactly when the input is degenerate" is too strong. -/
theorem claim_C7_counterexample :
    DateUtils.jsParseIsoDate "2024-01-15" = some ⟨2024, 1, 15⟩ ∧
    (0 : Int) < 10000000 ∧
    RecurringUpkeepUtils.recognizedUnit (some "years") = true ∧
    DateUtils.calculateNextDueDate "2024-01-15" 10000000 (some "years") = none := by
  decide

/-- The branch dispatch produces no date exactly on an unrecognized
unit. -/
theorem nextDueCivil_none_iff (c : Civil) (i : Int) (u : Option String) :
    DateUtils.nextDueCivil c i (u.map jsToLower) = none ↔
      RecurringUpkeepUtils.recognizedUnit u = false := by
  unfold DateUtils.nextDueCivil RecurringUpkeepUtils.recognizedUnit
  dsimp only
  split_ifs with h1 h2 h3 h4
  · exact iff_of_false (by simp) (by rw [decide_eq_false_iff_not]; tauto)
  · exact iff_of_false (by simp) (by rw [decide_eq_false_iff_not]; tauto)
  · exact iff_of_false (by simp) (by rw [decide_eq_false_iff_not]; tauto)
  · exact iff_of_false (by simp) (by rw [decide_eq_false_iff_not]; tauto)
  · exact iff_of_true rfl (by rw [decide_eq_false_iff_not]; tauto)

/-- C7 (amended): `calculateNextDueDate` returns `null` exactly when its
input is degenerate — `lastDone` empty or unparsable (the strict ISO
parse fails), or `interval <= 0`, or the unit unrecognized — or when the
computed next date falls outside the host date range (the final `isNaN`
guard); it never throws for any input (every function of this embedding
is total), and on the `null` result the downstream status computation
degrades to the indeterminate `-9999` days remaining instead of
crashing. -/
theorem claim_C7_null_iff :
    (∀ (lastDone : String) (interval : Int) (unit : Option String),
      DateUtils.calculateNextDueDate lastDone interval unit = none ↔
        (DateUtils.jsParseIsoDate lastDone = none ∨ interval ≤ 0 ∨
         RecurringUpkeepUtils.recognizedUnit unit = false ∨
         (∃ c c2, DateUtils.jsParseIsoDate lastDone = some c ∧
            DateUtils.nextDueCivil c interval (unit.map jsToLower) = some c2 ∧
            jsDateRangeOK c2 = false))) ∧
    (∀ (task : UpkeepTask) (now ld : String), task.last_done = some ld →
      ld ≠ "" → ld ≠ "never" →
      DateUtils.calculateNextDueDate ld task.interval task.interval_unit = none →
      DateUtils.isToday ld now = false →
      (RecurringUpkeepUtils.determineTaskStatus task now).daysRemaining = -9999 ∧
      (RecurringUpkeepUtils.determineTaskStatus task now).status = .overdue) := by
  constructor
  · intro lastDone interval unit
    unfold DateUtils.calculateNextDueDate
    by_cases hempty : lastDone = ""
    · subst hempty
      rw [if_pos rfl]
      exact ⟨fun _ => Or.inl (by decide), fun _ => rfl⟩
    · rw [if_neg hempty]
      cases hp : DateUtils.jsParseIsoDate lastDone with
      | none => simp
      | some c =>
        dsimp only
        by_cases hle : interval ≤ 0
        · rw [if_pos hle]
          simp [hle]
        · rw [if_neg hle]
          cases hnc : DateUtils.nextDueCivil c interval (unit.map jsToLower) with
          | none =>
            have hu := (nextDueCivil_none_iff c interval unit).mp hnc
            simp [hu]
          | some c2 =>
            dsimp only
            by_cases hr : jsDateRangeOK c2 = true
            · rw [if_pos hr]
              constructor
              · intro hcontra
                exact absurd hcontra (by simp)
              · rintro (h | h | h | ⟨c3, c4, hc3, hc4, hrf⟩)
                · exact Option.noConfusion h
                · omega
                · have hx := (nextDueCivil_none_iff c interval unit).mpr h
                  rw [hnc] at hx
                  exact Option.noConfusion hx
                · injection hc3 with e
                  subst e
                  rw [hnc] at hc4
                  injection hc4 with e2
                  subst e2
                  rw [hr] at hrf
                  exact Bool.noConfusion hrf
            · rw [if_neg hr]
              refine ⟨fun _ => ?_, fun _ => rfl⟩
              exact Or.inr (Or.inr (Or.inr
                ⟨c, c2, rfl, hnc, by simpa using hr⟩))
  · intro task now ld hld h1 h2 hnull htod
    simp only [RecurringUpkeepUtils.determineTaskStatus, hld]
    rw [if_neg (not_or.mpr ⟨h1, h2⟩), hnull, htod]
    norm_num
    exact ⟨rfl, rfl⟩

/-- Closed witness for C7 (amended): a non-positive interval yields
`null`, and a task with an unrecognized unit (hence null next due) not
completed today degrades to `-9999` days remaining and the overdue
label. -/
theorem claim_C7_null_iff_witness :
    DateUtils.calculateNextDueDate "2024-01-15" 0 (some "days") = none ∧
    (RecurringUpkeepUtils.determineTaskStatus
      ⟨some "2024-01-15", 1, some "fortnights", none⟩ "2024-02-01").daysRemaining = -9999 ∧
    (RecurringUpkeepUtils.determineTaskStatus
      ⟨some "2024-01-15", 1, some "fortnights", none⟩ "2024-02-01").status = .overdue :=
  ⟨(claim_C7_null_iff.1 "2024-01-15" 0 (some "days")).mpr (Or.inr (Or.inl (by decide))),
   (claim_C7_null_iff.2 ⟨some "2024-01-15", 1, some "fortnights", none⟩ "2024-02-01"
      "2024-01-15" rfl (by decide) (by decide) (by decide) (by decide)).1,
   (claim_C7_null_iff.2 ⟨some "2024-01-15", 1, some "fortnights", none⟩ "2024-02-01"
      "2024-01-15" rfl (by decide) (by decide) (by decide) (by decide)).2⟩

/-- A decimal digit is not the dash separator. -/
theorem ne_dash_of_isDigit {a : Char} (h : a.isDigit = true) : a ≠ '-' := by
  rintro rfl
  exact absurd h (by decide)

/-- `split('-')` on a string of the date shape yields the three digit
groups. -/
theorem splitDash_ymd (a1 a2 a3 a4 a6 a7 a9 a10 : Char)
    (n1 : a1 ≠ '-') (n2 : a2 ≠ '-') (n3 : a3 ≠ '-') (n4 : a4 ≠ '-')
    (n6 : a6 ≠ '-') (n7 : a7 ≠ '-') (n9 : a9 ≠ '-') (n10 : a10 ≠ '-') :
    splitDash [a1, a2, a3, a4, '-', a6, a7, '-', a9, a10] =
      [[a1, a2, a3, a4], [a6, a7], [a9, a10]] := by
  simp [splitDash, n1, n2, n3, n4, n6, n7, n9, n10]

/-- `parseInt` on a two-digit group. -/
theorem jsParseInt_two (a b : Char) (ha : a.isDigit = true) (hb : b.isDigit = true) :
    jsParseInt [a, b] = some (digitVal a * 10 + digitVal b) := by
  simp [jsParseInt, List.takeWhile, ha, hb]

/-- `parseInt` on a four-digit group. -/
theorem jsParseInt_four (a b c d : Char) (ha : a.isDigit = true) (hb : b.isDigit = true)
    (hc : c.isDigit = true) (hd : d.isDigit = true) :
    jsParseInt [a, b, c, d] =
      some (((digitVal a * 10 + digitVal b) * 10 + digitVal c) * 10 + digitVal d) := by
  simp [jsParseInt, List.takeWhile, ha, hb, hc, hd]

/-- The implementation's regex/`split`/`parseInt`/`isNaN` pipeline agrees
with the spec's positional description on every string; in particular the
`isNaN` re-check after `parseInt` is dead once the regex has matched. -/
theorem parseLocalDateString_eq_spec (s : String) :
    DateUtils.parseLocalDateString s = DateUtils.specLocalDateParse s := by
  unfold DateUtils.parseLocalDateString DateUtils.specLocalDateParse
  dsimp only
  generalize (stripTimePart s).data = l
  rcases l with _ | ⟨a1, _ | ⟨a2, _ | ⟨a3, _ | ⟨a4, _ | ⟨a5, _ | ⟨a6, _ | ⟨a7, _ | ⟨a8, _ | ⟨a9, _ | ⟨a10, rest⟩⟩⟩⟩⟩⟩⟩⟩⟩⟩
  · rfl
  · rfl
  · rfl
  · rfl
  · rfl
  · rfl
  · rfl
  · rfl
  · rfl
  · rfl
  rcases rest with _ | ⟨b, bs⟩
  · by_cases hcond : a1.isDigit = true ∧ a2.isDigit = true ∧ a3.isDigit = true ∧
        a4.isDigit = true ∧ a5 = '-' ∧ a6.isDigit = true ∧ a7.isDigit = true ∧
        a8 = '-' ∧ a9.isDigit = true ∧ a10.isDigit = true
    · obtain ⟨h1, h2, h3, h4, h5, h6, h7, h8, h9, h10⟩ := hcond
      subst h5
      subst h8
      rw [if_pos (show ymdShape _ = true by
        simp [ymdShape, h1, h2, h3, h4, h6, h7, h9, h10])]
      rw [splitDash_ymd a1 a2 a3 a4 a6 a7 a9 a10
        (ne_dash_of_isDigit h1) (ne_dash_of_isDigit h2) (ne_dash_of_isDigit h3)
        (ne_dash_of_isDigit h4) (ne_dash_of_isDigit h6) (ne_dash_of_isDigit h7)
        (ne_dash_of_isDigit h9) (ne_dash_of_isDigit h10)]
      dsimp only
      rw [jsParseInt_four a1 a2 a3 a4 h1 h2 h3 h4, jsParseInt_two a6 a7 h6 h7,
        jsParseInt_two a9 a10 h9 h10]
      dsimp only
      rw [if_pos ⟨h1, h2, h3, h4, rfl, h6, h7, rfl, h9, h10⟩]
      push_cast
      rfl
    · have hym : ymdShape [a1, a2, a3, a4, a5, a6, a7, a8, a9, a10] = false := by
        rw [Bool.eq_false_iff]
        intro hx
        apply hcond
        simpa [ymdShape, Bool.and_eq_true, decide_eq_true_eq, and_assoc] using hx
      rw [hym]
      dsimp only
      rw [if_neg hcond]
      simp
  · rfl

/-- C6: `parseLocalDate` is a total, deterministic function of its input
(totality is intrinsic to the embedding — every branch, including the
caught rendering errors of object inputs, returns a value): `null`,
throwing formatters and invalid native dates give the invalid sentinel,
and on every string it strips everything from an embedded `'T'` onward,
returns the sentinel unless the remainder matches `^\d{4}-\d{2}-\d{2}$`,
and otherwise constructs the date from the year/month/day integers with
the local calendar constructor — the behavior `specLocalDateParse` spells
out. -/
theorem claim_C6_parse_local_date_total :
    DateUtils.parseLocalDate .null = none ∧
    DateUtils.parseLocalDate (.formatted none) = none ∧
    DateUtils.parseLocalDate (.nativeDate none) = none ∧
    (∀ s, DateUtils.parseLocalDate (.str s) = DateUtils.specLocalDateParse s) ∧
    (∀ s, DateUtils.parseLocalDate (.formatted (some s)) = DateUtils.specLocalDateParse s) ∧
    (∀ c, DateUtils.parseLocalDate (.nativeDate (some c)) =
      DateUtils.specLocalDateParse (isoDatePart c)) := by
  refine ⟨rfl, rfl, rfl, ?_, ?_, ?_⟩
  · intro s
    unfold DateUtils.parseLocalDate
    dsimp only
    by_cases h : s = ""
    · subst h
      rfl
    · rw [if_neg h]
      exact parseLocalDateString_eq_spec s
  · intro s
    exact parseLocalDateString_eq_spec s
  · intro c
    exact parseLocalDateString_eq_spec (isoDatePart c)

end Upkeep
